import Mathlib

/-!
Shallow embedding of the multi-resolution linear registration driver
(`src/lib/registration/linear.h`, class `MR::Registration::Linear`) and of
the outer estimation loop of the bias-field / intensity-normalisation
command (`src/cmd/mt_lognorm.cpp`), together with proofs of the
specification claims about them.

Machine floating-point values (`default_type` = `double`) are embedded as
rationals; the claims treated here are structural (which arguments are
passed where, in what order, how often), not about rounding.
-/

namespace MRReg

/-- `default_type` of the C++ code, embedded as `ℚ`. -/
abbrev defaultType := ℚ

/-- A flat transform parameter vector (`Eigen::Matrix<..., Dynamic, 1>`). -/
abbrev ParamVec := List ℚ

/-- A 3-D projective transform matrix (`Eigen::Transform<default_type, 3, Projective>`). -/
abbrev ProjMat := Matrix (Fin 4) (Fin 4) ℚ

/-- Image headers are opaque to the registration driver; we give them ids. -/
abbrev HeaderId := Nat

/-- An input image as seen by the driver: only its header is inspected
(`original_header()`); voxel data lives behind the external filters. -/
structure ImageT where
  original_header : HeaderId
deriving DecidableEq

/-- Initialisation strategies (`Transform::Init::InitType`); the enum itself
is declared outside the reviewed sources, the driver only compares against
`mass` and `geometric`, any other value skips initialisation. -/
inductive InitType where
  | mass
  | geometric
  | other
deriving DecidableEq

/-- The configuration members of class `Linear`
(`src/lib/registration/linear.h`, lines 358-368). -/
structure Linear where
  max_iter : List Int
  scale_factor : List ℚ
  sparsity : List ℚ
  smooth_factor : ℚ
  kernel_extent : List Nat
  grad_tolerance : ℚ
  step_tolerance : ℚ
  init_type : InitType
  directions : List ParamVec
deriving DecidableEq

/-- The `Linear()` constructor (lines 66-78): `max_iter = {300}`,
`scale_factor = {0.5, 1}`, `sparsity = {0}`, `smooth_factor = 1`,
`kernel_extent = {1,1,1}`, `grad_tolerance = 1e-6`, `step_tolerance = 1e-10`,
`init_type = mass`, `directions` empty. -/
def linearDefault : Linear where
  max_iter := [300]
  scale_factor := [1/2, 1]
  sparsity := [0]
  smooth_factor := 1
  kernel_extent := [1, 1, 1]
  grad_tolerance := 1 / 10 ^ 6
  step_tolerance := 1 / 10 ^ 10
  init_type := InitType.mass
  directions := []

/-- The validation loop of `Linear::set_max_iter` (lines 80-85): scans the
vector and throws at the first negative entry. -/
def checkIterations : List Int → Option String
  | [] => none
  | m :: rest =>
      if m < 0 then some "the number of iterations must be positive"
      else checkIterations rest

/-- `Linear::set_max_iter` (lines 80-85).  A C++ `throw` is embedded as
`Except.error`; the member assignment only happens after the loop, so on
error the stored configuration is the caller's unchanged `c`. -/
def set_max_iter (c : Linear) (maxiter : List Int) : Except String Linear :=
  match checkIterations maxiter with
  | some e => Except.error e
  | none => Except.ok { c with max_iter := maxiter }

/-- `Linear::set_grad_tolerance` (lines 128-130). -/
def set_grad_tolerance (c : Linear) (tolerance : ℚ) : Linear :=
  { c with grad_tolerance := tolerance }

/-- A translation-style projective matrix: identity plus a last column `v`
(rows other than the last).  Used for the spec-modelled half-transforms. -/
def transMat (v : Fin 4 → ℚ) : ProjMat :=
  Matrix.of fun i j =>
    (if i = j then 1 else 0) + (if j = 3 ∧ ¬ i = 3 then v i else 0)

/-- Modelled from the spec: the transform model (the `TransformType`
template parameter; its classes are not among the reviewed sources).  It
carries one flat parameter vector; the half-transform and the
half-transform-inverse are two derived views of that vector, never
independently mutated. -/
structure SymTransform where
  params : ParamVec
deriving DecidableEq

/-- Modelled from the spec: the translation component encoded by a
parameter vector (first three entries, halved; homogeneous row zero). -/
def vecOfParams (p : ParamVec) : Fin 4 → ℚ :=
  fun i => if (i : Nat) = 3 then 0 else p.getD i 0 / 2

/-- Modelled from the spec: `transform.get_transform_half()`. -/
def get_transform_half (t : SymTransform) : ProjMat :=
  transMat (vecOfParams t.params)

/-- Modelled from the spec: `transform.get_transform_half_inverse()`, the
exact matrix inverse of the half-transform, derived from the same
parameter vector. -/
def get_transform_half_inverse (t : SymTransform) : ProjMat :=
  transMat (fun i => -(vecOfParams t.params i))

/-- Modelled from the spec: `transform.set_parameter_vector(...)` replaces
the single stored parameter vector, implicitly updating both views. -/
def set_parameter_vector (t : SymTransform) (p : ParamVec) : SymTransform :=
  { t with params := p }

/-- Modelled from the spec: `transform.get_optimiser_weights()`, one
preconditioning weight per parameter. -/
def get_optimiser_weights (t : SymTransform) : ParamVec :=
  t.params.map (fun _ => 1)

/-- A `Filter::Smooth` application as the driver observes it: the source
image it was constructed from and the standard deviation passed to
`set_stdev`; the filter itself is an external collaborator. -/
structure SmoothCall where
  src : ImageT
  stdev : ℚ
deriving DecidableEq

/-- Modelled from the spec: the result of the external
`compute_minimum_average_header` (declared in `image/average_space.h`,
outside the reviewed sources).  The driver treats the returned header
opaquely, so the model records exactly the arguments it was computed
from. -/
structure AvgSpaceArgs where
  headers : List HeaderId
  resolution : ℚ
  padding : List ℚ
  transforms : List ProjMat
deriving DecidableEq

/-- Modelled from the spec: the external average-space computation; given
image headers, a reference resolution, padding and one transform per
header it returns the minimal covering header, observed here as the
record of its arguments. -/
def compute_minimum_average_header (headers : List HeaderId) (resolution : ℚ)
    (padding : List ℚ) (transforms : List ProjMat) : AvgSpaceArgs :=
  { headers := headers, resolution := resolution, padding := padding,
    transforms := transforms }

/-- A `Filter::Resize` application on the midway image as the driver
observes it: source header, `set_scale_factor` and `set_interp_type`
arguments. -/
structure ResizeCall where
  src : AvgSpaceArgs
  scale : ℚ
  interp_type : Nat
deriving DecidableEq

/-- Everything the driver binds into the metric-evaluation context at one
level (`Metric::Params` plus `Metric::Evaluate`): the two smoothed inputs,
the resized midway image, sparsity, kernel extent, the optional masks and
the optional direction set. -/
structure EvaluateCtx where
  im1 : SmoothCall
  im2 : SmoothCall
  midway_resized : ResizeCall
  sparsity : ℚ
  extent : List Nat
  im1_mask : Option ImageT
  im2_mask : Option ImageT
  directions : Option (List ParamVec)
deriving DecidableEq

/-- The argument list of one `optim.run(...)` invocation together with the
preconditioning weights (`optim.precondition`) and the starting parameter
vector.  Modelled from the spec for the `start` field: the external
gradient-descent optimizer begins from the transform's current parameter
vector. -/
structure OptimCall where
  start : ParamVec
  max_iterations : Int
  grad_tolerance_arg : ℚ
  verbose : Bool
  step_tolerance_arg : ℚ
  relative_tolerance_arg : ℚ
  absolute_tolerance_arg : ℚ
  weights : ParamVec
deriving DecidableEq

/-- Modelled from the spec: the external gradient-descent optimizer,
consuming the metric context and the call arguments and returning the
final state `optim.state()`. -/
abbrev Optimiser := EvaluateCtx → OptimCall → ParamVec

/-- The hard-coded tolerance constant `1.0e-30` of line 333. -/
def tol30 : ℚ := 1 / 10 ^ 30

/-- What one iteration of the resolution-level loop (lines 243-344) leaves
behind: the level index, its scale factor, the metric context, the
optimizer call and the parameter vector committed by
`set_parameter_vector` (line 334). -/
structure LevelRecord where
  level : Nat
  scale : ℚ
  ctx : EvaluateCtx
  call : OptimCall
  committed : ParamVec
deriving DecidableEq

/-- `std::vector::resize(n, v)`: truncate to `n`, or pad with copies of
`v` up to `n`. -/
def cppResize {α : Type} (l : List α) (n : Nat) (v : α) : List α :=
  l.take n ++ List.replicate (n - l.length) v

/-- The broadcast/validation step applied to `max_iter` and `sparsity` at
the top of `run_masked` (lines 181-189): a singleton is resized to the
level count, any other length must equal it. -/
def broadcastPerLevel {α : Type} (xs : List α) (levels : Nat) (err : String) :
    Except String (List α) :=
  match xs with
  | [x] => Except.ok (cppResize [x] levels x)
  | xs => if xs.length = levels then Except.ok xs else Except.error err

/-- The resolution-level loop of `run_masked` (lines 243-344), driven by the
zipped per-level schedule `(scale_factor, max_iter, sparsity)`.  At each
level the two inputs are smoothed (not resampled) with stdev
`smooth_factor * 1 / (2 * scale)` (lines 264-280), the midway image is
resized to the level's scale with interpolation type 1 (lines 283-285),
the metric context is assembled (lines 304-324), the optimizer is run with
the hard-coded `1.0e-30` tolerances (line 333) and its state is committed
by `set_parameter_vector` (line 334). -/
def levelLoop (optim : Optimiser) (smooth_factor : ℚ) (kernel_extent : List Nat)
    (directions : List ParamVec) (weights : ParamVec)
    (im1_image im2_image : ImageT) (im1_mask im2_mask : Option ImageT)
    (midway_image : AvgSpaceArgs) :
    List (ℚ × Int × ℚ) → Nat → SymTransform → SymTransform × List LevelRecord
  | [], _, t => (t, [])
  | (s, mi, sp) :: rest, level, t =>
      let im1_smoothed : SmoothCall :=
        { src := im1_image, stdev := smooth_factor * 1 / (2 * s) }
      let im2_smoothed : SmoothCall :=
        { src := im2_image, stdev := smooth_factor * 1 / (2 * s) }
      let midway_resized : ResizeCall :=
        { src := midway_image, scale := s, interp_type := 1 }
      let ctx : EvaluateCtx :=
        { im1 := im1_smoothed, im2 := im2_smoothed,
          midway_resized := midway_resized, sparsity := sp,
          extent := kernel_extent, im1_mask := im1_mask, im2_mask := im2_mask,
          directions := if directions.isEmpty then none else some directions }
      let call : OptimCall :=
        { start := t.params, max_iterations := mi, grad_tolerance_arg := tol30,
          verbose := false, step_tolerance_arg := tol30,
          relative_tolerance_arg := tol30, absolute_tolerance_arg := tol30,
          weights := weights }
      let committed := optim ctx call
      let t2 := set_parameter_vector t committed
      let next := levelLoop optim smooth_factor kernel_extent directions weights
        im1_image im2_image im1_mask im2_mask midway_image rest (level + 1) t2
      (next.1, { level := level, scale := s, ctx := ctx, call := call,
                 committed := committed } :: next.2)

/-- Everything `run_masked` leaves behind: the post-run configuration
members (`max_iter`/`sparsity` are resized in place), the transform right
after initialisation, the midway-space computation, the per-level records
and the final transform. -/
structure RunOutput where
  config : Linear
  init_transform : SymTransform
  midway : AvgSpaceArgs
  levels : List LevelRecord
  transform : SymTransform
deriving DecidableEq

/-- `Linear::run_masked` (lines 172-356), symmetric build (the
`NONSYMREGISTRATION` macro is not defined): broadcast/validate `max_iter`
and `sparsity`; initialise the transform (lines 191-195); capture the
initial half-transform and half-transform-inverse (lines 196-204); fetch
the optimiser weights (line 227); compute the midway header once from
`[im2 header, im1 header]`, resolution `1.0`, zero padding and the two
captured transforms (lines 234-240); then run the level loop.  External
collaborators (optimizer, initialisers) are passed in, mirroring the C++
template/link structure. -/
def run_masked (optim : Optimiser)
    (initialise_using_image_mass initialise_using_image_centres :
      ImageT → ImageT → SymTransform → SymTransform)
    (c : Linear) (transform : SymTransform)
    (im1_image im2_image : ImageT) (im1_mask im2_mask : Option ImageT) :
    Except String RunOutput :=
  match broadcastPerLevel c.max_iter c.scale_factor.length
      "the max number of iterations needs to be defined for each multi-resolution level" with
  | Except.error e => Except.error e
  | Except.ok max_iter =>
    match broadcastPerLevel c.sparsity c.scale_factor.length
        "the sparsity level needs to be defined for each multi-resolution level" with
    | Except.error e => Except.error e
    | Except.ok sparsity =>
      let t0 : SymTransform :=
        match c.init_type with
        | InitType.mass => initialise_using_image_mass im1_image im2_image transform
        | InitType.geometric => initialise_using_image_centres im1_image im2_image transform
        | InitType.other => transform
      let init_transforms : List ProjMat :=
        [get_transform_half t0, get_transform_half_inverse t0]
      let optimiser_weights := get_optimiser_weights t0
      let padding : List ℚ := [0, 0, 0, 0]
      let im2_res : ℚ := 1
      let headers : List HeaderId :=
        [im2_image.original_header, im1_image.original_header]
      let midway_image :=
        compute_minimum_average_header headers im2_res padding init_transforms
      let schedule := c.scale_factor.zip (max_iter.zip sparsity)
      let result := levelLoop optim c.smooth_factor c.kernel_extent c.directions
        optimiser_weights im1_image im2_image im1_mask im2_mask midway_image
        schedule 0 t0
      Except.ok { config := { c with max_iter := max_iter, sparsity := sparsity },
                  init_transform := t0, midway := midway_image,
                  levels := result.2, transform := result.1 }

/-- Evaluates a predicate on the output of a successful run; an aborted
run (configuration error) has no output to constrain. -/
def onOk (e : Except String RunOutput) (f : RunOutput → Bool) : Bool :=
  match e with
  | Except.ok o => f o
  | Except.error _ => true

/-- The per-level chain of optimizer starting points: the first level
starts from the given vector, each later level from the previous level's
committed vector. -/
def paramChain : ParamVec → List LevelRecord → Bool
  | _, [] => true
  | p, r :: rest => decide (r.call.start = p) && paramChain r.committed rest

/-- The last committed parameter vector of a trace (or the given vector if
no level ran). -/
def lastCommitted : ParamVec → List LevelRecord → ParamVec
  | p, [] => p
  | _, r :: rest => lastCommitted r.committed rest

/-- A concrete optimizer instantiation: returns its starting point. -/
def optimConst : Optimiser := fun _ call => call.start

/-- A concrete initialiser instantiation: keeps the transform. -/
def initConst : ImageT → ImageT → SymTransform → SymTransform := fun _ _ t => t

/-- A concrete starting transform. -/
def transformZero : SymTransform := { params := [0, 0, 0] }

/-- A concrete first input image. -/
def imageOne : ImageT := { original_header := 1 }

/-- A concrete second input image. -/
def imageTwo : ImageT := { original_header := 2 }

/-- The outer estimation loop of `run` in `src/cmd/mt_lognorm.cpp`
(`size_t iter = 1; while (iter < max_iter) { ...; iter++; }`, lines
221-224 and 367-369): `outerLoopIter max_iter iter` counts the number of
body executions still to come when the counter holds `iter`.  Totality of
this definition is the loop's termination argument. -/
def outerLoopIter (max_iter iter : Nat) : Nat :=
  if h : iter < max_iter then outerLoopIter max_iter (iter + 1) + 1 else 0
termination_by max_iter - iter

/-- The total number of outer bias-field estimation iterations executed by
`mt_lognorm` for a given `maxiter` option value (the counter starts at 1). -/
def outerLoopCount (max_iter : Nat) : Nat := outerLoopIter max_iter 1

theorem transMat_mul (v w : Fin 4 → ℚ) :
    transMat v * transMat w = transMat (fun i => v i + w i) := by
  ext i j
  simp only [transMat, Matrix.mul_apply, Matrix.of_apply]
  fin_cases i <;> fin_cases j <;>
    simp [Fin.sum_univ_four] <;> ring

theorem transMat_zero : transMat (fun _ => (0 : ℚ)) = 1 := by
  ext i j
  fin_cases i <;> fin_cases j <;>
    simp [transMat, Matrix.one_apply]

theorem half_mul_half_inverse (t : SymTransform) :
    get_transform_half t * get_transform_half_inverse t = 1 := by
  rw [get_transform_half, get_transform_half_inverse, transMat_mul]
  have h : (fun i => vecOfParams t.params i + -(vecOfParams t.params i))
      = fun _ => (0 : ℚ) := by
    funext i; ring
  rw [h, transMat_zero]

theorem outerLoopIter_eq (m : Nat) :
    ∀ (n i : Nat), m - i ≤ n → outerLoopIter m i = m - i := by
  intro n
  induction n with
  | zero =>
      intro i h
      unfold outerLoopIter
      have hx : ¬ i < m := by omega
      rw [dif_neg hx]
      omega
  | succ n ih =>
      intro i h
      unfold outerLoopIter
      by_cases hx : i < m
      · rw [dif_pos hx, ih (i + 1) (by omega)]
        omega
      · rw [dif_neg hx]
        omega

theorem cppResize_length {α : Type} (l : List α) (n : Nat) (v : α) :
    (cppResize l n v).length = n := by
  simp [cppResize]
  omega

theorem cppResize_singleton {α : Type} (x : α) (n : Nat) :
    cppResize [x] n x = List.replicate n x := by
  cases n with
  | zero => rfl
  | succ k => simp [cppResize, List.replicate_succ]

theorem broadcastPerLevel_singleton {α : Type} (x : α) (L : Nat) (err : String) :
    broadcastPerLevel [x] L err = Except.ok (List.replicate L x) := by
  simp [broadcastPerLevel, cppResize_singleton]

theorem broadcastPerLevel_replicate {α : Type} (v : α) (L : Nat) (err : String) :
    broadcastPerLevel (List.replicate L v) L err = Except.ok (List.replicate L v) := by
  cases L with
  | zero => rfl
  | succ n =>
    cases n with
    | zero => simp [broadcastPerLevel, cppResize]
    | succ k =>
        rw [List.replicate_succ, List.replicate_succ]
        simp [broadcastPerLevel, List.length_replicate]

theorem broadcastPerLevel_bad_length {α : Type} (xs : List α) (L : Nat)
    (err : String) (h1 : xs.length ≠ 1) (h2 : xs.length ≠ L) :
    broadcastPerLevel xs L err = Except.error err := by
  match xs with
  | [] =>
      simp only [broadcastPerLevel]
      rw [if_neg h2]
  | [x] => simp at h1
  | x :: y :: rest =>
      simp only [broadcastPerLevel]
      rw [if_neg h2]

theorem broadcastPerLevel_ok_length {α : Type} {xs ys : List α} {L : Nat}
    {err : String} (h : broadcastPerLevel xs L err = Except.ok ys) :
    ys.length = L := by
  match xs with
  | [x] =>
      rw [broadcastPerLevel_singleton] at h
      cases h
      simp
  | [] =>
      simp only [broadcastPerLevel] at h
      split at h
      · cases h; omega
      · cases h
  | x :: y :: rest =>
      simp only [broadcastPerLevel] at h
      split at h
      · cases h; omega
      · cases h

theorem broadcastPerLevel_ok_val {α : Type} (d : α) {xs ys : List α} {L : Nat}
    {err : String} (h : broadcastPerLevel xs L err = Except.ok ys) :
    ys = if xs.length = 1 then List.replicate L (xs.headD d) else xs := by
  match xs with
  | [x] =>
      rw [broadcastPerLevel_singleton] at h
      injection h with h
      subst h
      simp
  | [] =>
      simp only [broadcastPerLevel] at h
      split at h
      · injection h with h
        subst h
        simp
      · cases h
  | x :: y :: rest =>
      simp only [broadcastPerLevel] at h
      split at h
      · injection h with h
        subst h
        have hne : (x :: y :: rest).length ≠ 1 := by simp
        rw [if_neg hne]
      · cases h

theorem zip3_map_fst {α β γ : Type} (l1 : List α) (l2 : List β) (l3 : List γ)
    (h12 : l1.length = l2.length) (h23 : l2.length = l3.length) :
    (l1.zip (l2.zip l3)).map (fun x => x.1) = l1 := by
  induction l1 generalizing l2 l3 with
  | nil => simp
  | cons a l ih =>
      cases l2 with
      | nil => simp at h12
      | cons b l2 =>
          cases l3 with
          | nil => simp at h23
          | cons c l3 =>
              simp only [List.zip_cons_cons, List.map_cons]
              rw [ih l2 l3 (by simpa using h12) (by simpa using h23)]

theorem zip3_map_snd_fst {α β γ : Type} (l1 : List α) (l2 : List β) (l3 : List γ)
    (h12 : l1.length = l2.length) (h23 : l2.length = l3.length) :
    (l1.zip (l2.zip l3)).map (fun x => x.2.1) = l2 := by
  induction l1 generalizing l2 l3 with
  | nil => cases l2 with
      | nil => simp
      | cons b l2 => simp at h12
  | cons a l ih =>
      cases l2 with
      | nil => simp at h12
      | cons b l2 =>
          cases l3 with
          | nil => simp at h23
          | cons c l3 =>
              simp only [List.zip_cons_cons, List.map_cons]
              rw [ih l2 l3 (by simpa using h12) (by simpa using h23)]

section LoopLemmas

variable (optim : Optimiser) (sm : ℚ) (ke : List Nat) (dirs : List ParamVec)
  (w : ParamVec) (i1 i2 : ImageT) (m1 m2 : Option ImageT) (mid : AvgSpaceArgs)

theorem levelLoop_length (zl : List (ℚ × Int × ℚ)) :
    ∀ (lvl : Nat) (t : SymTransform),
      (levelLoop optim sm ke dirs w i1 i2 m1 m2 mid zl lvl t).2.length
        = zl.length := by
  induction zl with
  | nil => intro lvl t; rfl
  | cons hd rest ih =>
      intro lvl t
      obtain ⟨s, mi, sp⟩ := hd
      simp only [levelLoop, List.length_cons]
      rw [ih]

theorem levelLoop_map_level (zl : List (ℚ × Int × ℚ)) :
    ∀ (lvl : Nat) (t : SymTransform),
      (levelLoop optim sm ke dirs w i1 i2 m1 m2 mid zl lvl t).2.map
          (fun r => r.level) = List.range' lvl zl.length := by
  induction zl with
  | nil => intro lvl t; rfl
  | cons hd rest ih =>
      intro lvl t
      obtain ⟨s, mi, sp⟩ := hd
      simp only [levelLoop, List.map_cons, List.length_cons, List.range'_succ]
      rw [ih]

theorem levelLoop_map_scale (zl : List (ℚ × Int × ℚ)) :
    ∀ (lvl : Nat) (t : SymTransform),
      (levelLoop optim sm ke dirs w i1 i2 m1 m2 mid zl lvl t).2.map
          (fun r => r.scale) = zl.map (fun x => x.1) := by
  induction zl with
  | nil => intro lvl t; rfl
  | cons hd rest ih =>
      intro lvl t
      obtain ⟨s, mi, sp⟩ := hd
      simp only [levelLoop, List.map_cons]
      rw [ih]

theorem levelLoop_map_maxIter (zl : List (ℚ × Int × ℚ)) :
    ∀ (lvl : Nat) (t : SymTransform),
      (levelLoop optim sm ke dirs w i1 i2 m1 m2 mid zl lvl t).2.map
          (fun r => r.call.max_iterations) = zl.map (fun x => x.2.1) := by
  induction zl with
  | nil => intro lvl t; rfl
  | cons hd rest ih =>
      intro lvl t
      obtain ⟨s, mi, sp⟩ := hd
      simp only [levelLoop, List.map_cons]
      rw [ih]

theorem levelLoop_map_sparsity (zl : List (ℚ × Int × ℚ)) :
    ∀ (lvl : Nat) (t : SymTransform),
      (levelLoop optim sm ke dirs w i1 i2 m1 m2 mid zl lvl t).2.map
          (fun r => r.ctx.sparsity) = zl.map (fun x => x.2.2) := by
  induction zl with
  | nil => intro lvl t; rfl
  | cons hd rest ih =>
      intro lvl t
      obtain ⟨s, mi, sp⟩ := hd
      simp only [levelLoop, List.map_cons]
      rw [ih]

theorem levelLoop_tolerances (zl : List (ℚ × Int × ℚ)) :
    ∀ (lvl : Nat) (t : SymTransform),
      (levelLoop optim sm ke dirs w i1 i2 m1 m2 mid zl lvl t).2.map
          (fun r => (r.call.grad_tolerance_arg, r.call.step_tolerance_arg,
            r.call.relative_tolerance_arg, r.call.absolute_tolerance_arg))
        = List.replicate zl.length (tol30, tol30, tol30, tol30) := by
  induction zl with
  | nil => intro lvl t; rfl
  | cons hd rest ih =>
      intro lvl t
      obtain ⟨s, mi, sp⟩ := hd
      simp only [levelLoop, List.map_cons, List.length_cons,
        List.replicate_succ]
      rw [ih]

theorem levelLoop_ctx (zl : List (ℚ × Int × ℚ)) :
    ∀ (lvl : Nat) (t : SymTransform),
      (levelLoop optim sm ke dirs w i1 i2 m1 m2 mid zl lvl t).2.all
          (fun r => decide (
            r.ctx.im1 = { src := i1, stdev := sm * 1 / (2 * r.scale) } ∧
            r.ctx.im2 = { src := i2, stdev := sm * 1 / (2 * r.scale) } ∧
            r.ctx.midway_resized
              = { src := mid, scale := r.scale, interp_type := 1 } ∧
            r.ctx.extent = ke ∧ r.ctx.im1_mask = m1 ∧ r.ctx.im2_mask = m2))
        = true := by
  induction zl with
  | nil => intro lvl t; rfl
  | cons hd rest ih =>
      intro lvl t
      obtain ⟨s, mi, sp⟩ := hd
      simp only [levelLoop, List.all_cons, Bool.and_eq_true]
      exact ⟨by simp, ih (lvl + 1) _⟩

theorem levelLoop_committed (zl : List (ℚ × Int × ℚ)) :
    ∀ (lvl : Nat) (t : SymTransform),
      (levelLoop optim sm ke dirs w i1 i2 m1 m2 mid zl lvl t).2.all
          (fun r => decide (r.committed = optim r.ctx r.call)) = true := by
  induction zl with
  | nil => intro lvl t; rfl
  | cons hd rest ih =>
      intro lvl t
      obtain ⟨s, mi, sp⟩ := hd
      simp only [levelLoop, List.all_cons, Bool.and_eq_true]
      exact ⟨by simp, ih (lvl + 1) _⟩

theorem levelLoop_chain (zl : List (ℚ × Int × ℚ)) :
    ∀ (lvl : Nat) (t : SymTransform),
      paramChain t.params
        (levelLoop optim sm ke dirs w i1 i2 m1 m2 mid zl lvl t).2 = true := by
  induction zl with
  | nil => intro lvl t; rfl
  | cons hd rest ih =>
      intro lvl t
      obtain ⟨s, mi, sp⟩ := hd
      simp only [levelLoop, paramChain, Bool.and_eq_true]
      exact ⟨by simp, ih (lvl + 1) _⟩

theorem levelLoop_final (zl : List (ℚ × Int × ℚ)) :
    ∀ (lvl : Nat) (t : SymTransform),
      (levelLoop optim sm ke dirs w i1 i2 m1 m2 mid zl lvl t).1.params
        = lastCommitted t.params
            (levelLoop optim sm ke dirs w i1 i2 m1 m2 mid zl lvl t).2 := by
  induction zl with
  | nil => intro lvl t; rfl
  | cons hd rest ih =>
      intro lvl t
      obtain ⟨s, mi, sp⟩ := hd
      simp only [levelLoop, lastCommitted]
      exact ih (lvl + 1) _

theorem levelLoop_smoothing (zl : List (ℚ × Int × ℚ)) :
    ∀ (lvl : Nat) (t : SymTransform),
      (levelLoop optim sm ke dirs w i1 i2 m1 m2 mid zl lvl t).2.all
          (fun r => decide (
            r.ctx.im1 = { src := i1, stdev := sm / (2 * r.scale) } ∧
            r.ctx.im2 = { src := i2, stdev := sm / (2 * r.scale) } ∧
            r.ctx.midway_resized
              = { src := mid, scale := r.scale, interp_type := 1 }))
        = true := by
  induction zl with
  | nil => intro lvl t; rfl
  | cons hd rest ih =>
      intro lvl t
      obtain ⟨s, mi, sp⟩ := hd
      simp only [levelLoop, List.all_cons, Bool.and_eq_true]
      exact ⟨by simp [mul_one], ih (lvl + 1) _⟩

theorem levelLoop_midway (zl : List (ℚ × Int × ℚ)) :
    ∀ (lvl : Nat) (t : SymTransform),
      (levelLoop optim sm ke dirs w i1 i2 m1 m2 mid zl lvl t).2.all
          (fun r => decide (r.ctx.midway_resized.src = mid)) = true := by
  induction zl with
  | nil => intro lvl t; rfl
  | cons hd rest ih =>
      intro lvl t
      obtain ⟨s, mi, sp⟩ := hd
      simp only [levelLoop, List.all_cons, Bool.and_eq_true]
      exact ⟨by simp, ih (lvl + 1) _⟩

end LoopLemmas

theorem zip3_map_snd_snd {α β γ : Type} (l1 : List α) (l2 : List β) (l3 : List γ)
    (h12 : l1.length = l2.length) (h23 : l2.length = l3.length) :
    (l1.zip (l2.zip l3)).map (fun x => x.2.2) = l3 := by
  induction l1 generalizing l2 l3 with
  | nil => cases l2 with
      | nil => cases l3 with
          | nil => simp
          | cons c l3 => simp at h23
      | cons b l2 => simp at h12
  | cons a l ih =>
      cases l2 with
      | nil => simp at h12
      | cons b l2 =>
          cases l3 with
          | nil => simp at h23
          | cons c l3 =>
              simp only [List.zip_cons_cons, List.map_cons]
              rw [ih l2 l3 (by simpa using h12) (by simpa using h23)]

/-- C10: the outer estimation loop of the bias-field / intensity
normalisation command starts its counter at 1 and iterates while
`iter < max_iter`, so exactly `max_iter - 1` outer iterations execute
(natural subtraction, hence at most `max_iter - 1`); in particular with
`maxiter` 1 or 0 no estimation iteration runs at all, and the loop
terminates (totality of `outerLoopCount`). -/
theorem mt_lognorm_outer_loop_iterations (m : Nat) :
    outerLoopCount m = m - 1 ∧ outerLoopCount 1 = 0 ∧ outerLoopCount 0 = 0 := by
  refine ⟨?_, ?_, ?_⟩ <;>
    first
      | exact outerLoopIter_eq m (m - 1) 1 le_rfl
      | exact outerLoopIter_eq 1 0 1 le_rfl
      | exact outerLoopIter_eq 0 0 1 le_rfl

/-- C2 (code bug witness): `Linear::set_max_iter` accepts a zero iteration
count — at the failing input `[0]` it raises no error and stores
`max_iter = [0]`, although its own exception message ("the number of
iterations must be positive") and the spec demand a configuration error
for non-positive counts; the guard tests `maxiter[i] < 0` instead of
`<= 0`. -/
theorem set_max_iter_accepts_zero :
    set_max_iter linearDefault [0]
      = Except.ok { linearDefault with max_iter := [0] } := by
  rfl

/-- C3: in symmetric mode, for every run configuration and input, the
product of the half-transform and the half-transform-inverse is the
identity matrix immediately after transform initialisation
(`init_transform`) and again immediately after each level's
`set_parameter_vector` commit. -/
theorem half_inverse_identity_at_level_boundaries (optim : Optimiser)
    (im ig : ImageT → ImageT → SymTransform → SymTransform)
    (c : Linear) (t : SymTransform) (i1 i2 : ImageT) (m1 m2 : Option ImageT) :
    onOk (run_masked optim im ig c t i1 i2 m1 m2) (fun o =>
      decide (get_transform_half o.init_transform
          * get_transform_half_inverse o.init_transform = 1)
      && o.levels.all (fun r =>
        decide (get_transform_half (set_parameter_vector o.init_transform r.committed)
          * get_transform_half_inverse
              (set_parameter_vector o.init_transform r.committed) = 1)))
      = true := by
  cases h : run_masked optim im ig c t i1 i2 m1 m2 with
  | error e => rfl
  | ok o =>
      simp [onOk, half_mul_half_inverse]

/-- C9: in symmetric mode `run_masked` passes the headers to the
average-space computation in the order [image-2 header, image-1 header],
paired element-wise with the transforms [initial half-transform, initial
half-transform-inverse]. -/
theorem average_space_argument_pairing (optim : Optimiser)
    (im ig : ImageT → ImageT → SymTransform → SymTransform)
    (c : Linear) (t : SymTransform) (i1 i2 : ImageT) (m1 m2 : Option ImageT) :
    onOk (run_masked optim im ig c t i1 i2 m1 m2) (fun o =>
      decide (o.midway.headers = [i2.original_header, i1.original_header]
        ∧ o.midway.transforms
            = [get_transform_half o.init_transform,
               get_transform_half_inverse o.init_transform])) = true := by
  unfold run_masked
  split
  · rfl
  · split
    · rfl
    · simp [onOk, compute_minimum_average_header]

/-- C5: in symmetric mode the midway header is computed exactly once,
before the level loop, from both input headers and the transform's initial
half-transform pair, at reference resolution `1.0` with zero padding, and
every level's resize of the midway image reads that same fixed header. -/
theorem midway_space_computed_once (optim : Optimiser)
    (im ig : ImageT → ImageT → SymTransform → SymTransform)
    (c : Linear) (t : SymTransform) (i1 i2 : ImageT) (m1 m2 : Option ImageT) :
    onOk (run_masked optim im ig c t i1 i2 m1 m2) (fun o =>
      decide (o.midway = compute_minimum_average_header
          [i2.original_header, i1.original_header] 1 [0, 0, 0, 0]
          [get_transform_half o.init_transform,
           get_transform_half_inverse o.init_transform])
      && o.levels.all (fun r => decide (r.ctx.midway_resized.src = o.midway)))
      = true := by
  unfold run_masked
  split
  · rfl
  · split
    · rfl
    · simp [onOk, levelLoop_midway]

/-- C1: the per-level optimizer invocation never reads the configured
`grad_tolerance` (or `step_tolerance`): changing `grad_tolerance` via its
setter changes nothing in the run output except the stored configuration
field itself, and every level's optimizer call carries the hard-coded
`1.0e-30` tolerance constants together with `max_iter[level]`. -/
theorem grad_tolerance_not_used_by_optimiser_call (optim : Optimiser)
    (im ig : ImageT → ImageT → SymTransform → SymTransform)
    (c : Linear) (g : ℚ) (t : SymTransform) (i1 i2 : ImageT)
    (m1 m2 : Option ImageT) :
    run_masked optim im ig (set_grad_tolerance c g) t i1 i2 m1 m2
      = (run_masked optim im ig c t i1 i2 m1 m2).map
          (fun o => { o with config := set_grad_tolerance o.config g })
    ∧ onOk (run_masked optim im ig c t i1 i2 m1 m2) (fun o =>
        decide (o.levels.map (fun r =>
            (r.call.grad_tolerance_arg, r.call.step_tolerance_arg,
             r.call.relative_tolerance_arg, r.call.absolute_tolerance_arg))
          = List.replicate o.levels.length (tol30, tol30, tol30, tol30)
          ∧ o.levels.map (fun r => r.call.max_iterations) = o.config.max_iter))
        = true := by
  obtain ⟨mi, sf, sp, smf, ke, gt, st, it, dir⟩ := c
  constructor
  · simp only [run_masked, set_grad_tolerance]
    split
    · rfl
    · split
      · rfl
      · rfl
  · simp only [run_masked]
    split
    · rfl
    · next mi2 hb1 =>
        split
        · rfl
        · next sp2 hb2 =>
            have hl1 := broadcastPerLevel_ok_length hb1
            have hl2 := broadcastPerLevel_ok_length hb2
            simp only [onOk, decide_eq_true_eq]
            constructor
            · rw [levelLoop_tolerances, levelLoop_length]
            · rw [levelLoop_map_maxIter,
                zip3_map_snd_fst sf mi2 sp2 hl1.symm (hl1.trans hl2.symm)]

/-- C4: for a run with L resolution levels the transform parameter vector
is committed exactly once per level (L records, numbered 0..L-1 in order,
each committing the optimizer's return value unconditionally), the first
level's optimizer starts from the initialised transform's parameters, each
later level starts from the previous level's committed vector, and the
final transform holds the last committed vector. -/
theorem parameter_vector_committed_once_per_level (optim : Optimiser)
    (im ig : ImageT → ImageT → SymTransform → SymTransform)
    (c : Linear) (t : SymTransform) (i1 i2 : ImageT) (m1 m2 : Option ImageT) :
    onOk (run_masked optim im ig c t i1 i2 m1 m2) (fun o =>
      decide (o.levels.length = o.config.scale_factor.length
        ∧ o.levels.map (fun r => r.level)
            = List.range o.config.scale_factor.length)
      && paramChain o.init_transform.params o.levels
      && o.levels.all (fun r => decide (r.committed = optim r.ctx r.call))
      && decide (o.transform.params
            = lastCommitted o.init_transform.params o.levels))
      = true := by
  obtain ⟨mi, sf, sp, smf, ke, gt, st, it, dir⟩ := c
  simp only [run_masked]
  split
  · rfl
  · next mi2 hb1 =>
      split
      · rfl
      · next sp2 hb2 =>
          have hl1 := broadcastPerLevel_ok_length hb1
          have hl2 := broadcastPerLevel_ok_length hb2
          have hzl : (sf.zip (mi2.zip sp2)).length = sf.length := by
            simp [List.length_zip, hl1, hl2]
          simp only [onOk, Bool.and_eq_true, decide_eq_true_eq]
          refine ⟨⟨⟨⟨?_, ?_⟩, ?_⟩, ?_⟩, ?_⟩
          · rw [levelLoop_length, hzl]
          · rw [levelLoop_map_level, hzl, List.range_eq_range']
          · apply levelLoop_chain
          · apply levelLoop_committed
          · apply levelLoop_final

/-- C6: in symmetric mode, at every level each input image is only
smoothed on its native grid with standard deviation
`smooth_factor / (2 * scale_factor[level])`, while only the midway
template is geometrically resized to the level's scale factor (linear
interpolation, type 1); the recorded level scales are exactly the
configured `scale_factor` schedule. -/
theorem inputs_smoothed_midway_resized (optim : Optimiser)
    (im ig : ImageT → ImageT → SymTransform → SymTransform)
    (c : Linear) (t : SymTransform) (i1 i2 : ImageT) (m1 m2 : Option ImageT) :
    onOk (run_masked optim im ig c t i1 i2 m1 m2) (fun o =>
      decide (o.levels.map (fun r => r.scale) = o.config.scale_factor)
      && o.levels.all (fun r => decide (
          r.ctx.im1
            = { src := i1, stdev := o.config.smooth_factor / (2 * r.scale) } ∧
          r.ctx.im2
            = { src := i2, stdev := o.config.smooth_factor / (2 * r.scale) } ∧
          r.ctx.midway_resized
            = { src := o.midway, scale := r.scale, interp_type := 1 })))
      = true := by
  obtain ⟨mi, sf, sp, smf, ke, gt, st, it, dir⟩ := c
  simp only [run_masked]
  split
  · rfl
  · next mi2 hb1 =>
      split
      · rfl
      · next sp2 hb2 =>
          have hl1 := broadcastPerLevel_ok_length hb1
          have hl2 := broadcastPerLevel_ok_length hb2
          simp only [onOk, Bool.and_eq_true, decide_eq_true_eq]
          constructor
          · rw [levelLoop_map_scale,
              zip3_map_fst sf mi2 sp2 hl1.symm (hl1.trans hl2.symm)]
          · apply levelLoop_smoothing

/-- C7: a singleton per-level array (`max_iter` or `sparsity`) is
broadcast to `scale_factor.size()` elements and the run is observably
identical to one with the value pre-expanded to the full level count; an
array whose length is neither 1 nor `scale_factor.size()` makes
`run_masked` return the corresponding configuration error as its entire
result, before transform initialisation or any image work. -/
theorem singleton_broadcast_and_length_validation (optim : Optimiser)
    (im ig : ImageT → ImageT → SymTransform → SymTransform)
    (c : Linear) (t : SymTransform) (i1 i2 : ImageT) (m1 m2 : Option ImageT)
    (m : Int) (spv : ℚ) (v : List Int) (v2 : List ℚ)
    (hv1 : v.length ≠ 1) (hvL : v.length ≠ c.scale_factor.length)
    (hw1 : v2.length ≠ 1) (hwL : v2.length ≠ c.scale_factor.length) :
    run_masked optim im ig { c with max_iter := [m], sparsity := [spv] }
        t i1 i2 m1 m2
      = run_masked optim im ig
          { c with max_iter := List.replicate c.scale_factor.length m,
                   sparsity := List.replicate c.scale_factor.length spv }
          t i1 i2 m1 m2
    ∧ run_masked optim im ig { c with max_iter := v } t i1 i2 m1 m2
      = Except.error "the max number of iterations needs to be defined for each multi-resolution level"
    ∧ run_masked optim im ig
        { c with max_iter := List.replicate c.scale_factor.length m,
                 sparsity := v2 } t i1 i2 m1 m2
      = Except.error "the sparsity level needs to be defined for each multi-resolution level" := by
  obtain ⟨mi, sf, sp, smf, ke, gt, st, it, dir⟩ := c
  refine ⟨?_, ?_, ?_⟩
  · simp only [run_masked, broadcastPerLevel_singleton,
      broadcastPerLevel_replicate]
  · simp only [run_masked]
    rw [broadcastPerLevel_bad_length v sf.length _ hv1 hvL]
  · simp only [run_masked, broadcastPerLevel_replicate]
    rw [broadcastPerLevel_bad_length v2 sf.length _ hw1 hwL]

/-- Witness for C7: the default configuration has two levels; singleton
arrays `[5]` and `[0]` broadcast to both levels and behave like the
pre-expanded arrays, while length-3 arrays abort the run with the
configuration errors. -/
theorem singleton_broadcast_validation_witness :
    run_masked optimConst initConst initConst
        { linearDefault with max_iter := [5], sparsity := [0] }
        transformZero imageOne imageTwo none none
      = run_masked optimConst initConst initConst
          { linearDefault with
              max_iter := List.replicate linearDefault.scale_factor.length 5,
              sparsity := List.replicate linearDefault.scale_factor.length 0 }
          transformZero imageOne imageTwo none none
    ∧ run_masked optimConst initConst initConst
        { linearDefault with max_iter := [1, 2, 3] }
        transformZero imageOne imageTwo none none
      = Except.error "the max number of iterations needs to be defined for each multi-resolution level"
    ∧ run_masked optimConst initConst initConst
        { linearDefault with
            max_iter := List.replicate linearDefault.scale_factor.length 5,
            sparsity := [0, 0, 0] }
        transformZero imageOne imageTwo none none
      = Except.error "the sparsity level needs to be defined for each multi-resolution level" :=
  singleton_broadcast_and_length_validation optimConst initConst initConst
    linearDefault transformZero imageOne imageTwo none none 5 0 [1, 2, 3]
    [0, 0, 0] (by decide) (by decide) (by decide) (by decide)

/-- C8 counterexample: running with the default configuration (singleton
`max_iter = [300]`, two scale-factor levels) mutates the stored `max_iter`
member in place to `[300, 300]`, so the configuration is not left
unchanged by `run_masked`. -/
theorem run_masked_mutates_max_iter :
    (run_masked optimConst initConst initConst linearDefault transformZero
        imageOne imageTwo none none).map (fun o => o.config.max_iter)
      = Except.ok [300, 300]
    ∧ linearDefault.max_iter = [300] := ⟨rfl, rfl⟩

/-- C8 (amended): `run_masked` leaves every configuration member except
`max_iter` and `sparsity` unchanged; those two are only broadcast in
place — a singleton becomes `scale_factor.size()` copies of its value,
any other accepted length is stored back unchanged. -/
theorem run_masked_config_fields (optim : Optimiser)
    (im ig : ImageT → ImageT → SymTransform → SymTransform)
    (c : Linear) (t : SymTransform) (i1 i2 : ImageT) (m1 m2 : Option ImageT) :
    onOk (run_masked optim im ig c t i1 i2 m1 m2) (fun o =>
      decide (o.config.scale_factor = c.scale_factor
        ∧ o.config.smooth_factor = c.smooth_factor
        ∧ o.config.kernel_extent = c.kernel_extent
        ∧ o.config.grad_tolerance = c.grad_tolerance
        ∧ o.config.step_tolerance = c.step_tolerance
        ∧ o.config.init_type = c.init_type
        ∧ o.config.directions = c.directions
        ∧ o.config.max_iter = (if c.max_iter.length = 1
            then List.replicate c.scale_factor.length (c.max_iter.headD 0)
            else c.max_iter)
        ∧ o.config.sparsity = (if c.sparsity.length = 1
            then List.replicate c.scale_factor.length (c.sparsity.headD 0)
            else c.sparsity))) = true := by
  obtain ⟨mi, sf, sp, smf, ke, gt, st, it, dir⟩ := c
  simp only [run_masked]
  split
  · rfl
  · next mi2 hb1 =>
      split
      · rfl
      · next sp2 hb2 =>
          simp only [onOk, decide_eq_true_eq]
          refine ⟨trivial, trivial, trivial, trivial, trivial, trivial,
            trivial, ?_, ?_⟩
          · exact broadcastPerLevel_ok_val 0 hb1
          · exact broadcastPerLevel_ok_val 0 hb2

end MRReg
